import Mathlib

/-!
Shallow embedding of the picontrol-rs library (src/lib.rs and the pitest
binary src/bin/pitestrs.rs) and proofs about its specified behaviour.

Machine integers are modelled as `Nat` with explicit `% 2 ^ w` where the
Rust code truncates (integer casts, wrapping `u16` addition).  Fallible
Rust code returns `Except`; a Rust panic is modelled by `Option` with
`none` standing for the panic.  System calls (file open, seek, read,
write, ioctl) are modelled as oracle functions passed in as parameters,
and every driver-handle operation additionally returns the list of
system-call actions it issued, so that "performs no I/O" is a statement
about that trace being empty.
-/

/-- Little-endian byte writer for a value already truncated to 16 bits,
modelling `LittleEndian::write_u16`. -/
def write_u16 (n : Nat) : List Nat :=
  [n % 2 ^ 8, n / 2 ^ 8 % 2 ^ 8]

/-- Little-endian byte writer for a value already truncated to 32 bits,
modelling `LittleEndian::write_u32`. -/
def write_u32 (n : Nat) : List Nat :=
  [n % 2 ^ 8, n / 2 ^ 8 % 2 ^ 8, n / 2 ^ 16 % 2 ^ 8, n / 2 ^ 24 % 2 ^ 8]

/-- Little-endian byte writer for a value already truncated to 64 bits,
modelling `LittleEndian::write_u64`. -/
def write_u64 (n : Nat) : List Nat :=
  [n % 2 ^ 8, n / 2 ^ 8 % 2 ^ 8, n / 2 ^ 16 % 2 ^ 8, n / 2 ^ 24 % 2 ^ 8,
   n / 2 ^ 32 % 2 ^ 8, n / 2 ^ 40 % 2 ^ 8, n / 2 ^ 48 % 2 ^ 8, n / 2 ^ 56 % 2 ^ 8]

/-- Little-endian decoder of two bytes, modelling `LittleEndian::read_u16`. -/
def read_u16 (data : List Nat) : Nat :=
  data.getD 0 0 + 2 ^ 8 * data.getD 1 0

/-- Little-endian decoder of four bytes, modelling `LittleEndian::read_u32`. -/
def read_u32 (data : List Nat) : Nat :=
  data.getD 0 0 + 2 ^ 8 * data.getD 1 0 + 2 ^ 16 * data.getD 2 0 + 2 ^ 24 * data.getD 3 0

/-- Model of `num_to_bytes` (src/lib.rs lines 97-120): converts a `u64`
value to its little-endian byte representation at the requested bit width.
The Rust source dispatches on `size` with a `match`; the integer casts
`num as u8` / `as u16` / `as u32` / `as u64` are the `% 2 ^ w`
truncations. -/
def num_to_bytes (num : Nat) (size : Nat) : Except String (List Nat) :=
  if size = 8 then
    Except.ok [num % 2 ^ 8]
  else if size = 16 then
    Except.ok (write_u16 (num % 2 ^ 16))
  else if size = 32 then
    Except.ok (write_u32 (num % 2 ^ 32))
  else if size = 64 then
    Except.ok (write_u64 (num % 2 ^ 64))
  else
    Except.error ("invalid size " ++ toString size)

/-- Model of the width-matched little-endian decode inside
`read_variable_value` (src/bin/pitestrs.rs lines 226-236): the inner
`match spivariable.i16uLength` computing `u32_value`, with the
unreachable `_` arm returning the internal error. -/
def decode_value (len : Nat) (data : List Nat) : Except String Nat :=
  if len = 8 then
    Except.ok (data.getD 0 0)
  else if len = 16 then
    Except.ok (read_u16 data)
  else if len = 32 then
    Except.ok (read_u32 data)
  else
    Except.error "invalid length for variable. Internal Error"

/-- C1: for every supported width w in {8,16,32} and every 32-bit value v,
decoding the bytes produced by `num_to_bytes v w` with the width-matched
little-endian decode yields `v % 2 ^ w`; in particular encoding 4660 at
width 16 gives [0x34, 0x12] and decoding [0x34, 0x12] at width 16 gives
0x1234. -/
theorem c1_round_trip (v w : Nat) (hv : v < 2 ^ 32)
    (hw : w = 8 ∨ w = 16 ∨ w = 32) :
    (∃ bs, num_to_bytes v w = Except.ok bs ∧ decode_value w bs = Except.ok (v % 2 ^ w)) ∧
    num_to_bytes 4660 16 = Except.ok [0x34, 0x12] ∧
    decode_value 16 [0x34, 0x12] = Except.ok 0x1234 := by
  refine ⟨?_, rfl, rfl⟩
  rcases hw with rfl | rfl | rfl
  · exact ⟨[v % 2 ^ 8], rfl, by simp [decode_value]⟩
  · refine ⟨write_u16 (v % 2 ^ 16), rfl, ?_⟩
    simp only [decode_value, write_u16, read_u16]
    norm_num
    omega
  · refine ⟨write_u32 (v % 2 ^ 32), rfl, ?_⟩
    simp only [decode_value, write_u32, read_u32]
    norm_num
    omega

/-- Witness for C1 at v = 4660, w = 16. -/
theorem c1_round_trip_witness :
    (∃ bs, num_to_bytes 4660 16 = Except.ok bs ∧
      decode_value 16 bs = Except.ok (4660 % 2 ^ 16)) ∧
    num_to_bytes 4660 16 = Except.ok [0x34, 0x12] ∧
    decode_value 16 [0x34, 0x12] = Except.ok 0x1234 :=
  c1_round_trip 4660 16 (by decide) (Or.inr (Or.inl rfl))

/-- C2: for every width w in {8,16,32,64} and every value v,
`num_to_bytes v w` succeeds with exactly w / 8 bytes; for every other
width it returns an error. -/
theorem c2_num_to_bytes_length (v w : Nat) :
    ((w = 8 ∨ w = 16 ∨ w = 32 ∨ w = 64) →
      ∃ bs, num_to_bytes v w = Except.ok bs ∧ bs.length = w / 8) ∧
    (¬(w = 8 ∨ w = 16 ∨ w = 32 ∨ w = 64) →
      num_to_bytes v w = Except.error ("invalid size " ++ toString w)) := by
  constructor
  · rintro (rfl | rfl | rfl | rfl)
    · exact ⟨[v % 2 ^ 8], rfl, rfl⟩
    · exact ⟨write_u16 (v % 2 ^ 16), rfl, rfl⟩
    · exact ⟨write_u32 (v % 2 ^ 32), rfl, rfl⟩
    · exact ⟨write_u64 (v % 2 ^ 64), rfl, rfl⟩
  · intro h
    push_neg at h
    obtain ⟨h8, h16, h32, h64⟩ := h
    simp [num_to_bytes, h8, h16, h32, h64]

/-- Witness for C2 at v = 5, w = 16 (supported) and w = 7 (unsupported). -/
theorem c2_num_to_bytes_length_witness :
    (∃ bs, num_to_bytes 5 16 = Except.ok bs ∧ bs.length = 16 / 8) ∧
    num_to_bytes 5 7 = Except.error ("invalid size " ++ toString 7) :=
  ⟨(c2_num_to_bytes_length 5 16).1 (Or.inr (Or.inl rfl)),
   (c2_num_to_bytes_length 5 7).2 (by decide)⟩

/-- Modelled from the spec: system error codes as surfaced by the nix
crate; `ENODEV` is the not-connected error used by the handle, `code`
covers every other errno value (for example the last recorded system
error consulted after a negative ioctl return). -/
inductive Errno where
  | ENODEV : Errno
  | code : Nat → Errno
deriving DecidableEq, Repr

/-- Kind tag of a Rust `std::io::Error`, restricted to the kinds the
sources construct. -/
inductive ErrorKind where
  | NotFound : ErrorKind
  | Other : ErrorKind
deriving DecidableEq, Repr

/-- Model of `std::io::Error`: a kind together with its message. -/
structure IOError where
  kind : ErrorKind
  msg : String
deriving DecidableEq, Repr

/-- Modelled from the spec: the `SPIValue` bit-value descriptor of the
kernel ABI (module picontrol is not under src/): byte address (u16),
bit index (u8) and value byte (u8), each carried as `Nat`. -/
structure SPIValue where
  i16uAddress : Nat
  i8uBit : Nat
  i8uValue : Nat
deriving DecidableEq, Repr

/-- Modelled from the spec: the `SPIVariable` descriptor of the kernel
ABI (module picontrol is not under src/): fixed 32-byte name field,
byte address (u16), bit offset (u8) and bit length (u16). -/
structure SPIVariable where
  strVarName : List Nat
  i16uAddress : Nat
  i8uBit : Nat
  i16uLength : Nat
deriving DecidableEq, Repr

/-- Modelled from the spec: one fixed-size `SDeviceInfo` record of the
kernel ABI (module picontrol is not under src/): address, module type,
firmware versions, active flag and process-image offsets/lengths. -/
structure SDeviceInfo where
  i8uAddress : Nat
  i16uModuleType : Nat
  i16uSW_Major : Nat
  i16uSW_Minor : Nat
  i8uActive : Nat
  i16uInputOffset : Nat
  i16uInputLength : Nat
  i16uOutputOffset : Nat
  i16uOutputLength : Nat
deriving DecidableEq, Repr

/-- Modelled from the spec: the zeroed default record filling the
fixed-capacity ioctl buffer. -/
def SDeviceInfo.default : SDeviceInfo :=
  ⟨0, 0, 0, 0, 0, 0, 0, 0, 0⟩

/-- Modelled from the spec: the fixed maximum device count of the
get-device-info-list buffer (constant of module picontrol, not under
src/). -/
def REV_PI_DEV_CNT_MAX : Nat := 64

/-- One system-call action issued by a driver-handle operation; each
operation returns the list of actions it performed, so the no-I/O
claims are statements about this trace. -/
inductive IOAction where
  | openFile : String → IOAction
  | seekTo : Nat → Nat → IOAction
  | readExactly : Nat → Nat → IOAction
  | writeAll : Nat → List Nat → IOAction
  | ioctlReset : Nat → IOAction
  | ioctlGetVariableInfo : Nat → SPIVariable → IOAction
  | ioctlGetDeviceInfoList : Nat → IOAction
  | ioctlBitValue : Nat → SPIValue → IOAction
deriving DecidableEq, Repr

/-- Model of `RevPiControl` (src/lib.rs lines 64-68): a device path and
an optional open file handle, the handle modelled as its raw file
descriptor. -/
structure RevPiControl where
  path : String
  handle : Option Nat
deriving DecidableEq, Repr

/-- Model of `byte_to_int8_array` (src/lib.rs lines 88-94): copy the
name's bytes over the front of a zeroed 32-byte array.  The Rust
`split_at_mut(i8slice.len())` panics when the name is longer than 32
bytes; the panic is modelled as `none`. -/
def byte_to_int8_array (name : List Nat) : Option (List Nat) :=
  if name.length ≤ 32 then
    some (name ++ List.replicate (32 - name.length) 0)
  else
    none

/-- Model of `RevPiControl::open` (src/lib.rs lines 137-156): if a
handle is already present succeed immediately, otherwise ask the
open-file oracle and store the returned descriptor.  Returns the
result, the updated handle state, and the I/O trace. -/
def RevPiControl.openCtl (c : RevPiControl) (openFile : String → Except String Nat) :
    Except IOError Bool × RevPiControl × List IOAction :=
  match c.handle with
  | some _ => (Except.ok true, c, [])
  | none =>
    match openFile c.path with
    | Except.error e =>
      (Except.error ⟨ErrorKind.Other,
        "can not open picontrol file descriptor at " ++ c.path ++ ", error: " ++ e⟩,
       c, [IOAction.openFile c.path])
    | Except.ok fd =>
      (Except.ok true, { c with handle := some fd }, [IOAction.openFile c.path])

/-- Model of `RevPiControl::reset` (src/lib.rs lines 165-168): require
an open handle, then issue the reset ioctl. -/
def RevPiControl.reset (c : RevPiControl) (ioctl : Nat → Except Errno Int) :
    Except Errno Int × List IOAction :=
  match c.handle with
  | none => (Except.error Errno.ENODEV, [])
  | some fd => (ioctl fd, [IOAction.ioctlReset fd])

/-- Model of `RevPiControl::read` (src/lib.rs lines 172-182): require an
open handle, seek to the offset, then read exactly `length` bytes. -/
def RevPiControl.read (c : RevPiControl) (offset : Nat) (length : Nat)
    (seek : Nat → Nat → Except IOError Unit)
    (readExact : Nat → Nat → Except IOError (List Nat)) :
    Except IOError (List Nat) × List IOAction :=
  match c.handle with
  | none => (Except.error ⟨ErrorKind.NotFound, "error reading file"⟩, [])
  | some fd =>
    match seek fd offset with
    | Except.error e => (Except.error e, [IOAction.seekTo fd offset])
    | Except.ok _ =>
      match readExact fd length with
      | Except.error e =>
        (Except.error e, [IOAction.seekTo fd offset, IOAction.readExactly fd length])
      | Except.ok v =>
        (Except.ok v, [IOAction.seekTo fd offset, IOAction.readExactly fd length])

/-- Model of `RevPiControl::write` (src/lib.rs lines 185-194): require
an open handle, seek to the offset, then write all bytes. -/
def RevPiControl.write (c : RevPiControl) (offset : Nat) (data : List Nat)
    (seek : Nat → Nat → Except IOError Unit)
    (writeAll : Nat → List Nat → Except IOError Unit) :
    Except IOError Bool × List IOAction :=
  match c.handle with
  | none => (Except.error ⟨ErrorKind.NotFound, "error reading file"⟩, [])
  | some fd =>
    match seek fd offset with
    | Except.error e => (Except.error e, [IOAction.seekTo fd offset])
    | Except.ok _ =>
      match writeAll fd data with
      | Except.error e =>
        (Except.error e, [IOAction.seekTo fd offset, IOAction.writeAll fd data])
      | Except.ok _ =>
        (Except.ok true, [IOAction.seekTo fd offset, IOAction.writeAll fd data])

/-- Model of `RevPiControl::get_variable_info` (src/lib.rs lines
197-208): require an open handle, build the request struct with the
32-byte name field (panic modelled as `none`), issue the ioctl, and
treat a negative return as the last system error.  The ioctl oracle
returns the ioctl's return value together with the struct contents it
wrote back. -/
def RevPiControl.get_variable_info (c : RevPiControl) (name : List Nat)
    (ioctl : Nat → SPIVariable → Except Errno (Int × SPIVariable))
    (lastErr : Errno) :
    Option (Except Errno SPIVariable × List IOAction) :=
  match c.handle with
  | none => some (Except.error Errno.ENODEV, [])
  | some fd =>
    match byte_to_int8_array name with
    | none => none
    | some arr =>
      let v : SPIVariable := ⟨arr, 0, 0, 0⟩
      match ioctl fd v with
      | Except.error e => some (Except.error e, [IOAction.ioctlGetVariableInfo fd v])
      | Except.ok (res, v2) =>
        if res < 0 then
          some (Except.error lastErr, [IOAction.ioctlGetVariableInfo fd v])
        else
          some (Except.ok v2, [IOAction.ioctlGetVariableInfo fd v])

/-- Model of `RevPiControl::get_device_info_list` (src/lib.rs lines
211-222): require an open handle, issue the ioctl over the
fixed-capacity buffer, treat a negative return as the last system
error, and return only the first `res` records.  The ioctl oracle
returns the return value and the whole post-call buffer; the Rust slice
`pDev[..res as usize]` panics when `res` exceeds the buffer length,
modelled as `none`. -/
def RevPiControl.get_device_info_list (c : RevPiControl)
    (ioctl : Nat → Except Errno (Int × List SDeviceInfo)) (lastErr : Errno) :
    Option (Except Errno (List SDeviceInfo) × List IOAction) :=
  match c.handle with
  | none => some (Except.error Errno.ENODEV, [])
  | some fd =>
    match ioctl fd with
    | Except.error e => some (Except.error e, [IOAction.ioctlGetDeviceInfoList fd])
    | Except.ok (res, buf) =>
      if res < 0 then
        some (Except.error lastErr, [IOAction.ioctlGetDeviceInfoList fd])
      else if res.toNat ≤ buf.length then
        some (Except.ok (buf.take res.toNat), [IOAction.ioctlGetDeviceInfoList fd])
      else
        none

/-- Model of `RevPiControl::handle_bit_value` (src/lib.rs lines
234-249): require an open handle, normalize the caller's descriptor in
place (fold `i8uBit / 8` into the u16 address, wrapping modulo `2 ^ 16`,
and reduce the bit index modulo 8), then issue the bit ioctl with the
normalized descriptor.  Returns the result, the final contents of the
caller's descriptor (the ioctl oracle's write-back on success, the
normalized descriptor when the call itself fails), and the trace
carrying the descriptor passed to the ioctl. -/
def RevPiControl.handle_bit_value (c : RevPiControl) (v : SPIValue)
    (func : Nat → SPIValue → Except Errno (Int × SPIValue)) (lastErr : Errno) :
    Except Errno Bool × SPIValue × List IOAction :=
  match c.handle with
  | none => (Except.error Errno.ENODEV, v, [])
  | some fd =>
    let v1 : SPIValue :=
      { v with
        i16uAddress := (v.i16uAddress + v.i8uBit / 8) % 2 ^ 16,
        i8uBit := v.i8uBit % 8 }
    match func fd v1 with
    | Except.error e => (Except.error e, v1, [IOAction.ioctlBitValue fd v1])
    | Except.ok (res, v2) =>
      if res < 0 then
        (Except.error lastErr, v2, [IOAction.ioctlBitValue fd v1])
      else
        (Except.ok true, v2, [IOAction.ioctlBitValue fd v1])

/-- Model of `RevPiControl::get_bit_value` (src/lib.rs lines 225-227):
delegates to `handle_bit_value` with the get-bit ioctl as the function
argument. -/
def RevPiControl.get_bit_value (c : RevPiControl) (v : SPIValue)
    (func : Nat → SPIValue → Except Errno (Int × SPIValue)) (lastErr : Errno) :
    Except Errno Bool × SPIValue × List IOAction :=
  c.handle_bit_value v func lastErr

/-- Model of `RevPiControl::set_bit_value` (src/lib.rs lines 230-232):
delegates to `handle_bit_value` with the set-bit ioctl as the function
argument. -/
def RevPiControl.set_bit_value (c : RevPiControl) (v : SPIValue)
    (func : Nat → SPIValue → Except Errno (Int × SPIValue)) (lastErr : Errno) :
    Except Errno Bool × SPIValue × List IOAction :=
  c.handle_bit_value v func lastErr

/-- Model of `RevPiControl::SMALL_BUFFER_SIZE` (src/lib.rs line 251). -/
def RevPiControl.SMALL_BUFFER_SIZE : Nat := 256

/-- Model of `RevPiControl::LARGE_BUFFER_SIZE` (src/lib.rs line 252). -/
def RevPiControl.LARGE_BUFFER_SIZE : Nat := 64 * 1024

/-- The buffer-growth step at the bottom of the `redirect_stream` loop
(src/lib.rs lines 296-298): when the read filled the buffer completely
and the buffer is still under the large-size cap, append `len_read`
zero bytes; otherwise leave the buffer unchanged. -/
def rs_grow (buffer : List Nat) (len_read : Nat) : List Nat :=
  if len_read = buffer.length ∧ len_read < RevPiControl.LARGE_BUFFER_SIZE then
    buffer ++ List.replicate len_read 0
  else
    buffer

/-- Model of `RevPiControl::redirect_stream` (src/lib.rs lines 282-300).
The reader is an oracle giving, for the iteration counter and the
current buffer length, either an I/O error or the chunk of bytes the
read placed at the front of the buffer (`len_read` is the chunk
length).  An explicit fuel bounds the loop, `none` standing for a run
that has not terminated within the fuel.  Returns the loop result with
the final buffer contents and everything written, paired with the list
of buffer lengths observed at each loop entry. -/
def RevPiControl.redirect_stream
    (read1 : Nat → Nat → Except IOError (List Nat)) :
    Nat → Nat → List Nat → List Nat →
    Option (Except IOError Unit × List Nat × List Nat) × List Nat
  | 0, _, buffer, _ => (none, [buffer.length])
  | fuel + 1, i, buffer, written =>
    match read1 i buffer.length with
    | Except.error e => (some (Except.error e, buffer, written), [buffer.length])
    | Except.ok chunk =>
      if chunk.length = 0 then
        (some (Except.ok (), buffer, written), [buffer.length])
      else
        let buf1 := chunk ++ buffer.drop chunk.length
        let buf2 := rs_grow buf1 chunk.length
        let r := RevPiControl.redirect_stream read1 fuel (i + 1) buf2 (written ++ chunk)
        (r.1, buffer.length :: r.2)

/-- Model of `RevPiControl::dump` (src/lib.rs lines 260-280): require an
open handle, seek to the start of the process image, open the output
file, and run `redirect_stream` with a fresh zeroed buffer of
`SMALL_BUFFER_SIZE` bytes.  The outer `Option` is the fuel bound of the
copy loop. -/
def RevPiControl.dump (c : RevPiControl) (fp : String)
    (seek : Nat → Nat → Except IOError Unit)
    (openOut : String → Except IOError Nat)
    (read1 : Nat → Nat → Except IOError (List Nat)) (fuel : Nat) :
    Option (Except IOError Bool) × List IOAction :=
  match c.handle with
  | none => (some (Except.error ⟨ErrorKind.NotFound, "error reading file"⟩), [])
  | some fd =>
    match seek fd 0 with
    | Except.error e => (some (Except.error e), [IOAction.seekTo fd 0])
    | Except.ok _ =>
      match openOut fp with
      | Except.error e =>
        (some (Except.error e), [IOAction.seekTo fd 0, IOAction.openFile fp])
      | Except.ok _ =>
        match (RevPiControl.redirect_stream read1 fuel 0
                (List.replicate RevPiControl.SMALL_BUFFER_SIZE 0) []).1 with
        | none => (none, [IOAction.seekTo fd 0, IOAction.openFile fp])
        | some (Except.error e, _, _) =>
          (some (Except.error e), [IOAction.seekTo fd 0, IOAction.openFile fp])
        | some (Except.ok _, _, _) =>
          (some (Except.ok true), [IOAction.seekTo fd 0, IOAction.openFile fp])

/-- Model of the `Formats` enum of the pitest binary
(src/bin/pitestrs.rs lines 7-12). -/
inductive Formats where
  | Decimal : Formats
  | Hex : Formats
  | Binary : Formats
deriving DecidableEq, Repr

/-- Rendering of an errno as the message carried by a boxed error,
modelling the `?` conversion from `nix::Error` in the pitest binary. -/
def Errno.message : Errno → String
  | Errno.ENODEV => "ENODEV"
  | Errno.code n => "errno " ++ toString n

/-- Model of `read_variable_value` (src/bin/pitestrs.rs lines 185-285):
look the variable up, then either take the single-bit path
(`i16uLength == 1`), or reject a bit length that is not a multiple of 8
("could not read variable ... Internal Error"), or read `i16uLength / 8`
bytes and decode them at widths 8/16/32 — every other multiple of 8
falls to the outer match's `_` arm ("invalid byte size ...").  The
`Binary` format additionally re-encodes via
`num_to_bytes(u32_value, 32).unwrap()`, the unwrap panic modelled as
`none` (it never fires because width 32 is supported). -/
def read_variable_value (c : RevPiControl) (name : List Nat)
    (giIoctl : Nat → SPIVariable → Except Errno (Int × SPIVariable))
    (bitIoctl : Nat → SPIValue → Except Errno (Int × SPIValue))
    (seek : Nat → Nat → Except IOError Unit)
    (readExact : Nat → Nat → Except IOError (List Nat))
    (lastErr : Errno) (format : Formats) :
    Option (Except String Bool) :=
  match c.get_variable_info name giIoctl lastErr with
  | none => none
  | some (Except.error e, _) => some (Except.error e.message)
  | some (Except.ok spivariable, _) =>
    if spivariable.i16uLength = 1 then
      let spivalue : SPIValue :=
        ⟨spivariable.i16uAddress, spivariable.i8uBit, 0⟩
      match (c.get_bit_value spivalue bitIoctl lastErr).1 with
      | Except.error e => some (Except.error e.message)
      | Except.ok _ => some (Except.ok true)
    else if spivariable.i16uLength % 8 ≠ 0 then
      some (Except.error "could not read variable. Internal Error")
    else if spivariable.i16uLength = 8 ∨ spivariable.i16uLength = 16 ∨
        spivariable.i16uLength = 32 then
      match (c.read spivariable.i16uAddress (spivariable.i16uLength / 8)
              seek readExact).1 with
      | Except.error e => some (Except.error e.msg)
      | Except.ok data =>
        match decode_value spivariable.i16uLength data with
        | Except.error e => some (Except.error e)
        | Except.ok u32_value =>
          match format with
          | Formats.Binary =>
            match num_to_bytes u32_value 32 with
            | Except.ok _ => some (Except.ok true)
            | Except.error _ => none
          | _ => some (Except.ok true)
    else
      some (Except.error "invalid byte size for variable")

/-- C3 counterexample to the original claim: at the valid u16/u8
descriptor (address 65535, bit 8) the `+=` on the u16 address wraps, so
the ioctl receives address 0, not the claimed a + b / 8 = 65536. -/
theorem c3_bit_normalization_counterexample :
    ((RevPiControl.mk "p" (some 4)).handle_bit_value ⟨65535, 8, 1⟩
        (fun _ w => Except.ok (0, w)) (Errno.code 7)).2.2 =
      [IOAction.ioctlBitValue 4 ⟨0, 0, 1⟩] ∧
    (0 : Nat) ≠ 65535 + 8 / 8 :=
  ⟨rfl, by decide⟩

/-- C3 (amended): get_bit_value and set_bit_value both route through
the shared `handle_bit_value` normalization, which rewrites a
descriptor with address a and bit index b to address
(a + b / 8) mod 2 ^ 16 (the u16 addition wraps) and bit index b % 8
before issuing the ioctl, and the resulting bit index is always
below 8. -/
theorem c3_bit_normalization (c : RevPiControl) (fd : Nat) (v : SPIValue)
    (func : Nat → SPIValue → Except Errno (Int × SPIValue)) (lastErr : Errno)
    (hc : c.handle = some fd) :
    c.get_bit_value v func lastErr = c.handle_bit_value v func lastErr ∧
    c.set_bit_value v func lastErr = c.handle_bit_value v func lastErr ∧
    (c.handle_bit_value v func lastErr).2.2 =
      [IOAction.ioctlBitValue fd
        ⟨(v.i16uAddress + v.i8uBit / 8) % 2 ^ 16, v.i8uBit % 8, v.i8uValue⟩] ∧
    v.i8uBit % 8 < 8 := by
  refine ⟨rfl, rfl, ?_, Nat.mod_lt _ (by norm_num)⟩
  obtain ⟨p, hd⟩ := c
  simp only at hc
  subst hc
  simp only [RevPiControl.handle_bit_value]
  cases hfv : func fd
      ⟨(v.i16uAddress + v.i8uBit / 8) % 2 ^ 16, v.i8uBit % 8, v.i8uValue⟩ with
  | error e => rfl
  | ok p =>
    obtain ⟨res, v2⟩ := p
    by_cases hres : res < 0 <;> simp [hres]

/-- Witness for C3 at address 100, bit 19, on an open handle. -/
theorem c3_bit_normalization_witness :
    (RevPiControl.mk "p" (some 4)).get_bit_value ⟨100, 19, 1⟩
        (fun _ w => Except.ok (0, w)) (Errno.code 7) =
      (RevPiControl.mk "p" (some 4)).handle_bit_value ⟨100, 19, 1⟩
        (fun _ w => Except.ok (0, w)) (Errno.code 7) ∧
    (RevPiControl.mk "p" (some 4)).set_bit_value ⟨100, 19, 1⟩
        (fun _ w => Except.ok (0, w)) (Errno.code 7) =
      (RevPiControl.mk "p" (some 4)).handle_bit_value ⟨100, 19, 1⟩
        (fun _ w => Except.ok (0, w)) (Errno.code 7) ∧
    ((RevPiControl.mk "p" (some 4)).handle_bit_value ⟨100, 19, 1⟩
        (fun _ w => Except.ok (0, w)) (Errno.code 7)).2.2 =
      [IOAction.ioctlBitValue 4 ⟨(100 + 19 / 8) % 2 ^ 16, 19 % 8, 1⟩] ∧
    19 % 8 < 8 :=
  c3_bit_normalization (RevPiControl.mk "p" (some 4)) 4 ⟨100, 19, 1⟩
    (fun _ w => Except.ok (0, w)) (Errno.code 7) rfl

/-- C4: when the device-info ioctl reports a non-negative count `res`
over the fixed-capacity buffer, `get_device_info_list` returns exactly
the first `res` records: the result is the `res`-prefix of the buffer,
its length never exceeds `res`, and every returned record comes from a
buffer slot with index below `res`. -/
theorem c4_device_list_truncation (c : RevPiControl) (fd : Nat)
    (ioctl : Nat → Except Errno (Int × List SDeviceInfo)) (lastErr : Errno)
    (res : Int) (buf : List SDeviceInfo)
    (hc : c.handle = some fd) (hio : ioctl fd = Except.ok (res, buf))
    (hres : 0 ≤ res) (hbuf : buf.length = REV_PI_DEV_CNT_MAX)
    (hcnt : res.toNat ≤ REV_PI_DEV_CNT_MAX) :
    c.get_device_info_list ioctl lastErr =
      some (Except.ok (buf.take res.toNat), [IOAction.ioctlGetDeviceInfoList fd]) ∧
    (buf.take res.toNat).length ≤ res.toNat ∧
    ∀ d ∈ buf.take res.toNat, ∃ i, i < res.toNat ∧ buf.get? i = some d := by
  obtain ⟨p, hd⟩ := c
  simp only at hc
  subst hc
  refine ⟨?_, ?_, ?_⟩
  · simp only [RevPiControl.get_device_info_list]
    rw [hio]
    simp [not_lt.mpr hres, hbuf ▸ hcnt]
  · simpa using Nat.min_le_left _ _
  · intro d hd
    obtain ⟨i, hi⟩ := List.mem_iff_get?.mp hd
    have hilt : i < (buf.take res.toNat).length := by
      by_contra hle
      rw [List.get?_eq_none.mpr (not_lt.mp hle)] at hi
      exact Option.noConfusion hi
    have hin : i < res.toNat := lt_of_lt_of_le hilt (by simpa using Nat.min_le_left _ _)
    exact ⟨i, hin, by rw [← List.get?_take hin]; exact hi⟩

/-- Witness for C4: a 64-slot buffer with reported count 2 returns only
the first two records. -/
theorem c4_device_list_truncation_witness :
    (RevPiControl.mk "p" (some 4)).get_device_info_list
        (fun _ => Except.ok (2, List.replicate REV_PI_DEV_CNT_MAX SDeviceInfo.default))
        (Errno.code 7) =
      some (Except.ok ((List.replicate REV_PI_DEV_CNT_MAX SDeviceInfo.default).take
        (Int.toNat 2)), [IOAction.ioctlGetDeviceInfoList 4]) ∧
    ((List.replicate REV_PI_DEV_CNT_MAX SDeviceInfo.default).take (Int.toNat 2)).length ≤
      Int.toNat 2 ∧
    ∀ d ∈ (List.replicate REV_PI_DEV_CNT_MAX SDeviceInfo.default).take (Int.toNat 2),
      ∃ i, i < Int.toNat 2 ∧
        (List.replicate REV_PI_DEV_CNT_MAX SDeviceInfo.default).get? i = some d :=
  c4_device_list_truncation (RevPiControl.mk "p" (some 4)) 4
    (fun _ => Except.ok (2, List.replicate REV_PI_DEV_CNT_MAX SDeviceInfo.default))
    (Errno.code 7) 2 (List.replicate REV_PI_DEV_CNT_MAX SDeviceInfo.default)
    rfl rfl (by decide) (by simp [REV_PI_DEV_CNT_MAX]) (by decide)

/-- C5: on a handle whose open has not succeeded, every operation
(reset, read, write, get_variable_info, get_device_info_list,
get_bit_value, set_bit_value, dump) fails immediately with the
not-connected error of its path (ENODEV for the ioctl wrappers,
NotFound "error reading file" for the file paths), issues no system
call (empty I/O trace), and changes no state (the bit-value descriptor
is returned untouched). -/
theorem c5_unopened_fails_without_io (c : RevPiControl) (h : c.handle = none)
    (ioctlR : Nat → Except Errno Int)
    (seek : Nat → Nat → Except IOError Unit)
    (readExact : Nat → Nat → Except IOError (List Nat))
    (writeAll : Nat → List Nat → Except IOError Unit)
    (giIoctl : Nat → SPIVariable → Except Errno (Int × SPIVariable))
    (diIoctl : Nat → Except Errno (Int × List SDeviceInfo))
    (bitIoctl : Nat → SPIValue → Except Errno (Int × SPIValue))
    (openOut : String → Except IOError Nat)
    (read1 : Nat → Nat → Except IOError (List Nat))
    (lastErr : Errno) (offset length fuel : Nat)
    (data name : List Nat) (v : SPIValue) (fp : String) :
    c.reset ioctlR = (Except.error Errno.ENODEV, []) ∧
    c.read offset length seek readExact =
      (Except.error ⟨ErrorKind.NotFound, "error reading file"⟩, []) ∧
    c.write offset data seek writeAll =
      (Except.error ⟨ErrorKind.NotFound, "error reading file"⟩, []) ∧
    c.get_variable_info name giIoctl lastErr =
      some (Except.error Errno.ENODEV, []) ∧
    c.get_device_info_list diIoctl lastErr =
      some (Except.error Errno.ENODEV, []) ∧
    c.get_bit_value v bitIoctl lastErr = (Except.error Errno.ENODEV, v, []) ∧
    c.set_bit_value v bitIoctl lastErr = (Except.error Errno.ENODEV, v, []) ∧
    c.dump fp seek openOut read1 fuel =
      (some (Except.error ⟨ErrorKind.NotFound, "error reading file"⟩), []) := by
  obtain ⟨p, hd⟩ := c
  simp only at h
  subst h
  exact ⟨rfl, rfl, rfl, rfl, rfl, rfl, rfl, rfl⟩

/-- Witness for C5 on a freshly constructed unopened handle. -/
theorem c5_unopened_fails_without_io_witness :
    (RevPiControl.mk "/dev/piControl0" none).reset (fun _ => Except.ok 0) =
      (Except.error Errno.ENODEV, []) ∧
    (RevPiControl.mk "/dev/piControl0" none).read 0 4 (fun _ _ => Except.ok ())
        (fun _ n => Except.ok (List.replicate n 0)) =
      (Except.error ⟨ErrorKind.NotFound, "error reading file"⟩, []) ∧
    (RevPiControl.mk "/dev/piControl0" none).write 0 [1] (fun _ _ => Except.ok ())
        (fun _ _ => Except.ok ()) =
      (Except.error ⟨ErrorKind.NotFound, "error reading file"⟩, []) ∧
    (RevPiControl.mk "/dev/piControl0" none).get_variable_info [97]
        (fun _ w => Except.ok (0, w)) (Errno.code 7) =
      some (Except.error Errno.ENODEV, []) ∧
    (RevPiControl.mk "/dev/piControl0" none).get_device_info_list
        (fun _ => Except.ok (0, [])) (Errno.code 7) =
      some (Except.error Errno.ENODEV, []) ∧
    (RevPiControl.mk "/dev/piControl0" none).get_bit_value ⟨1, 2, 3⟩
        (fun _ w => Except.ok (0, w)) (Errno.code 7) =
      (Except.error Errno.ENODEV, ⟨1, 2, 3⟩, []) ∧
    (RevPiControl.mk "/dev/piControl0" none).set_bit_value ⟨1, 2, 3⟩
        (fun _ w => Except.ok (0, w)) (Errno.code 7) =
      (Except.error Errno.ENODEV, ⟨1, 2, 3⟩, []) ∧
    (RevPiControl.mk "/dev/piControl0" none).dump "out.bin" (fun _ _ => Except.ok ())
        (fun _ => Except.ok 9) (fun _ _ => Except.ok []) 3 =
      (some (Except.error ⟨ErrorKind.NotFound, "error reading file"⟩), []) :=
  c5_unopened_fails_without_io (RevPiControl.mk "/dev/piControl0" none) rfl
    (fun _ => Except.ok 0) (fun _ _ => Except.ok ())
    (fun _ n => Except.ok (List.replicate n 0)) (fun _ _ => Except.ok ())
    (fun _ w => Except.ok (0, w)) (fun _ => Except.ok (0, []))
    (fun _ w => Except.ok (0, w)) (fun _ => Except.ok 9) (fun _ _ => Except.ok [])
    (Errno.code 7) 0 4 3 [1] [97] ⟨1, 2, 3⟩ "out.bin"

/-- C6: open is idempotent: on an already-open handle a second open
returns success immediately, opens nothing (empty I/O trace), and
leaves the handle state, its descriptor and its stored path
unchanged. -/
theorem c6_open_idempotent (c : RevPiControl) (fd : Nat)
    (openFile : String → Except String Nat) (h : c.handle = some fd) :
    c.openCtl openFile = (Except.ok true, c, []) := by
  obtain ⟨p, hd⟩ := c
  simp only at h
  subst h
  rfl

/-- Witness for C6 on a handle already holding descriptor 5. -/
theorem c6_open_idempotent_witness :
    (RevPiControl.mk "/dev/piControl0" (some 5)).openCtl (fun _ => Except.ok 6) =
      (Except.ok true, RevPiControl.mk "/dev/piControl0" (some 5), []) :=
  c6_open_idempotent (RevPiControl.mk "/dev/piControl0" (some 5)) 5
    (fun _ => Except.ok 6) rfl

/-- C7: reading a variable whose reported bit length is neither 1 nor
8/16/32 (for example 24) returns an error — either the remainder check
or the width dispatch rejects it — and never a coerced value. -/
theorem c7_unsupported_width_fails (c : RevPiControl) (fd : Nat)
    (name arr : List Nat)
    (giIoctl : Nat → SPIVariable → Except Errno (Int × SPIVariable))
    (bitIoctl : Nat → SPIValue → Except Errno (Int × SPIValue))
    (seek : Nat → Nat → Except IOError Unit)
    (readExact : Nat → Nat → Except IOError (List Nat))
    (lastErr : Errno) (format : Formats) (res : Int) (v2 : SPIVariable)
    (hc : c.handle = some fd)
    (harr : byte_to_int8_array name = some arr)
    (hio : giIoctl fd ⟨arr, 0, 0, 0⟩ = Except.ok (res, v2))
    (hres : ¬res < 0)
    (h1 : v2.i16uLength ≠ 1) (h8 : v2.i16uLength ≠ 8)
    (h16 : v2.i16uLength ≠ 16) (h32 : v2.i16uLength ≠ 32) :
    ∃ e, read_variable_value c name giIoctl bitIoctl seek readExact lastErr format =
      some (Except.error e) := by
  obtain ⟨p, hd⟩ := c
  simp only at hc
  subst hc
  simp only [read_variable_value, RevPiControl.get_variable_info, harr, hio]
  simp only [if_neg hres, h1, if_neg (by exact h1)]
  by_cases hrem : v2.i16uLength % 8 ≠ 0
  · exact ⟨"could not read variable. Internal Error", by simp [hrem]⟩
  · refine ⟨"invalid byte size for variable", ?_⟩
    simp only [hrem]
    simp [h8, h16, h32]

/-- Witness for C7: a variable reported at bit length 24 by the ioctl
makes the read fail. -/
theorem c7_unsupported_width_fails_witness :
    ∃ e, read_variable_value (RevPiControl.mk "p" (some 3)) [97]
        (fun _ w => Except.ok (0, ⟨w.strVarName, w.i16uAddress, w.i8uBit, 24⟩))
        (fun _ w => Except.ok (0, w)) (fun _ _ => Except.ok ())
        (fun _ n => Except.ok (List.replicate n 0)) (Errno.code 5) Formats.Decimal =
      some (Except.error e) :=
  c7_unsupported_width_fails (RevPiControl.mk "p" (some 3)) 3 [97]
    ([97] ++ List.replicate 31 0)
    (fun _ w => Except.ok (0, ⟨w.strVarName, w.i16uAddress, w.i8uBit, 24⟩))
    (fun _ w => Except.ok (0, w)) (fun _ _ => Except.ok ())
    (fun _ n => Except.ok (List.replicate n 0)) (Errno.code 5) Formats.Decimal
    0 ⟨[97] ++ List.replicate 31 0, 0, 0, 24⟩
    rfl rfl rfl (by decide) (by decide) (by decide) (by decide) (by decide)

/-- C9: the bit-value paths mutate the caller's descriptor in place:
the normalization (address plus bit / 8, bit index reduced mod 8)
happens before the ioctl, and when the ioctl call fails the caller's
descriptor is left in the normalized state, not restored. -/
theorem c9_descriptor_left_normalized (c : RevPiControl) (fd : Nat)
    (v nv : SPIValue)
    (func : Nat → SPIValue → Except Errno (Int × SPIValue)) (lastErr : Errno)
    (e : Errno) (hc : c.handle = some fd)
    (hnv : nv = ⟨(v.i16uAddress + v.i8uBit / 8) % 2 ^ 16, v.i8uBit % 8, v.i8uValue⟩)
    (hf : func fd nv = Except.error e) :
    c.get_bit_value v func lastErr =
      (Except.error e, nv, [IOAction.ioctlBitValue fd nv]) ∧
    c.set_bit_value v func lastErr =
      (Except.error e, nv, [IOAction.ioctlBitValue fd nv]) := by
  obtain ⟨p, hd⟩ := c
  simp only at hc
  subst hc
  subst hnv
  constructor <;>
    simp only [RevPiControl.get_bit_value, RevPiControl.set_bit_value,
      RevPiControl.handle_bit_value, hf]

/-- Witness for C9: descriptor (100, 19, 1) is left as (102, 3, 1) when
the ioctl fails. -/
theorem c9_descriptor_left_normalized_witness :
    (RevPiControl.mk "p" (some 4)).get_bit_value ⟨100, 19, 1⟩
        (fun _ _ => Except.error (Errno.code 9)) (Errno.code 7) =
      (Except.error (Errno.code 9), ⟨102, 3, 1⟩,
        [IOAction.ioctlBitValue 4 ⟨102, 3, 1⟩]) ∧
    (RevPiControl.mk "p" (some 4)).set_bit_value ⟨100, 19, 1⟩
        (fun _ _ => Except.error (Errno.code 9)) (Errno.code 7) =
      (Except.error (Errno.code 9), ⟨102, 3, 1⟩,
        [IOAction.ioctlBitValue 4 ⟨102, 3, 1⟩]) :=
  c9_descriptor_left_normalized (RevPiControl.mk "p" (some 4)) 4
    ⟨100, 19, 1⟩ ⟨102, 3, 1⟩ (fun _ _ => Except.error (Errno.code 9))
    (Errno.code 7) (Errno.code 9) rfl (by decide) rfl

/-- C10: the 32-byte name field is built without a 31-byte-limit check:
a name of at most 31 bytes is zero-filled with at least one terminating
zero byte, a name of exactly 32 bytes fills the field with no
terminating zero added, and a longer name panics (modelled as `none`),
which propagates to `get_variable_info` instead of an error return. -/
theorem c10_name_field_limits (name : List Nat) (c : RevPiControl) (fd : Nat)
    (giIoctl : Nat → SPIVariable → Except Errno (Int × SPIVariable))
    (lastErr : Errno) (hc : c.handle = some fd) :
    (name.length ≤ 31 →
      byte_to_int8_array name = some (name ++ List.replicate (32 - name.length) 0) ∧
      (name ++ List.replicate (32 - name.length) 0).length = 32 ∧
      (name ++ List.replicate (32 - name.length) 0).take name.length = name ∧
      (name ++ List.replicate (32 - name.length) 0).drop name.length =
        List.replicate (32 - name.length) 0 ∧
      1 ≤ 32 - name.length) ∧
    (name.length = 32 → byte_to_int8_array name = some name) ∧
    (32 < name.length →
      byte_to_int8_array name = none ∧
      c.get_variable_info name giIoctl lastErr = none) := by
  obtain ⟨p, hd⟩ := c
  simp only at hc
  subst hc
  refine ⟨?_, ?_, ?_⟩
  · intro h31
    refine ⟨?_, ?_, ?_, ?_, by omega⟩
    · simp [byte_to_int8_array, show name.length ≤ 32 by omega]
    · simp; omega
    · exact List.take_left name _
    · exact List.drop_left name _
  · intro h32
    simp [byte_to_int8_array, h32]
  · intro h
    have hgt : ¬name.length ≤ 32 := by omega
    refine ⟨by simp [byte_to_int8_array, hgt], ?_⟩
    simp [RevPiControl.get_variable_info, byte_to_int8_array, hgt]

/-- Witness for C10 on a short, an exactly-32-byte, and a 33-byte
name. -/
theorem c10_name_field_limits_witness :
    byte_to_int8_array [97] = some ([97] ++ List.replicate 31 0) ∧
    byte_to_int8_array (List.replicate 32 1) = some (List.replicate 32 1) ∧
    byte_to_int8_array (List.replicate 33 1) = none ∧
    (RevPiControl.mk "p" (some 3)).get_variable_info (List.replicate 33 1)
      (fun _ w => Except.ok (0, w)) (Errno.code 7) = none := by
  have h1 := c10_name_field_limits [97] (RevPiControl.mk "p" (some 3)) 3
    (fun _ w => Except.ok (0, w)) (Errno.code 7) rfl
  have h2 := c10_name_field_limits (List.replicate 32 1)
    (RevPiControl.mk "p" (some 3)) 3 (fun _ w => Except.ok (0, w)) (Errno.code 7) rfl
  have h3 := c10_name_field_limits (List.replicate 33 1)
    (RevPiControl.mk "p" (some 3)) 3 (fun _ w => Except.ok (0, w)) (Errno.code 7) rfl
  exact ⟨(h1.1 (by decide)).1, h2.2.1 (by decide),
    (h3.2.2 (by decide)).1, (h3.2.2 (by decide)).2⟩

/-- Helper for the stream-copy bound: every buffer length observed at a
loop entry of `redirect_stream` stays at or below `2 ^ 16`, provided
the reader never reports more bytes than the buffer holds and the
initial buffer length divides `2 ^ 16` (the growth step doubles a
length that fully filled while under the cap, so lengths stay divisors
of the cap). -/
theorem redirect_stream_length_bound
    (read1 : Nat → Nat → Except IOError (List Nat))
    (hread : ∀ j L chunk, read1 j L = Except.ok chunk → chunk.length ≤ L) :
    ∀ fuel i buffer written, buffer.length ∣ 2 ^ 16 →
      ∀ ℓ ∈ (RevPiControl.redirect_stream read1 fuel i buffer written).2,
        ℓ ≤ 2 ^ 16 := by
  intro fuel
  induction fuel with
  | zero =>
    intro i buffer written hdvd ℓ hmem
    simp only [RevPiControl.redirect_stream, List.mem_singleton] at hmem
    subst hmem
    exact Nat.le_of_dvd (by norm_num) hdvd
  | succ fuel ih =>
    intro i buffer written hdvd ℓ hmem
    have hlen : buffer.length ≤ 2 ^ 16 := Nat.le_of_dvd (by norm_num) hdvd
    cases hr : read1 i buffer.length with
    | error e =>
      simp only [RevPiControl.redirect_stream, hr, List.mem_singleton] at hmem
      omega
    | ok chunk =>
      by_cases h0 : chunk.length = 0
      · simp only [RevPiControl.redirect_stream, hr, if_pos h0,
          List.mem_singleton] at hmem
        omega
      · simp only [RevPiControl.redirect_stream, hr, if_neg h0,
          List.mem_cons] at hmem
        rcases hmem with rfl | hmem
        · exact hlen
        · have hch : chunk.length ≤ buffer.length := hread i buffer.length chunk hr
          have hbuf1 : (chunk ++ buffer.drop chunk.length).length = buffer.length := by
            simp only [List.length_append, List.length_drop]
            omega
          have hdvd2 : (rs_grow (chunk ++ buffer.drop chunk.length)
              chunk.length).length ∣ 2 ^ 16 := by
            by_cases hg : chunk.length = (chunk ++ buffer.drop chunk.length).length ∧
                chunk.length < RevPiControl.LARGE_BUFFER_SIZE
            · rw [rs_grow, if_pos hg]
              have hcb : chunk.length = buffer.length := by rw [hg.1, hbuf1]
              have hblt : buffer.length < 2 ^ 16 := by
                have := hg.2
                rw [hcb] at this
                simpa [RevPiControl.LARGE_BUFFER_SIZE] using this
              obtain ⟨k, hk, hbl⟩ := (Nat.dvd_prime_pow Nat.prime_two).mp hdvd
              have hklt : k < 16 := by
                by_contra hge
                have : (2 : Nat) ^ 16 ≤ 2 ^ k :=
                  Nat.pow_le_pow_right (by norm_num) (by omega)
                omega
              have hlen2 : (chunk ++ buffer.drop chunk.length ++
                  List.replicate chunk.length 0).length = 2 ^ (k + 1) := by
                simp only [List.length_append, List.length_drop,
                  List.length_replicate]
                rw [hcb, hbl, pow_succ]
                omega
              rw [hlen2]
              exact pow_dvd_pow 2 (by omega)
            · rw [rs_grow, if_neg hg, hbuf1]
              exact hdvd
          exact ih (i + 1) _ (written ++ chunk) hdvd2 ℓ hmem

/-- C8: the stream copy of dump starts from a 256-byte buffer, grows by
appending `len_read` zero bytes exactly when a read fills the buffer
while it is under the 64*1024-byte cap, keeps every observed buffer
length at or below 64*1024, and returns cleanly on a zero-length
read. -/
theorem c8_stream_copy (read1 : Nat → Nat → Except IOError (List Nat))
    (fuel i len_read : Nat) (buffer written : List Nat)
    (hread : ∀ j L chunk, read1 j L = Except.ok chunk → chunk.length ≤ L) :
    RevPiControl.SMALL_BUFFER_SIZE = 256 ∧
    RevPiControl.LARGE_BUFFER_SIZE = 64 * 1024 ∧
    (len_read = buffer.length → len_read < RevPiControl.LARGE_BUFFER_SIZE →
      rs_grow buffer len_read = buffer ++ List.replicate len_read 0) ∧
    (¬(len_read = buffer.length ∧ len_read < RevPiControl.LARGE_BUFFER_SIZE) →
      rs_grow buffer len_read = buffer) ∧
    (∀ ℓ ∈ (RevPiControl.redirect_stream read1 fuel 0
        (List.replicate RevPiControl.SMALL_BUFFER_SIZE 0) []).2,
      ℓ ≤ RevPiControl.LARGE_BUFFER_SIZE) ∧
    (read1 i buffer.length = Except.ok [] →
      RevPiControl.redirect_stream read1 (fuel + 1) i buffer written =
        (some (Except.ok (), buffer, written), [buffer.length])) := by
  refine ⟨rfl, rfl, ?_, ?_, ?_, ?_⟩
  · intro h1 h2
    rw [rs_grow, if_pos ⟨h1, h2⟩]
  · intro h
    rw [rs_grow, if_neg h]
  · intro ℓ hmem
    have hb := redirect_stream_length_bound read1 hread fuel 0
      (List.replicate RevPiControl.SMALL_BUFFER_SIZE 0) []
      (by rw [List.length_replicate]; norm_num [RevPiControl.SMALL_BUFFER_SIZE]) ℓ hmem
    simpa [RevPiControl.LARGE_BUFFER_SIZE] using hb
  · intro h
    simp only [RevPiControl.redirect_stream, h, List.length_nil]
    rfl

/-- Witness for C8: growth fires on a full read under the cap, does not
fire otherwise, and a zero read terminates the loop cleanly. -/
theorem c8_stream_copy_witness :
    rs_grow [0, 0] 2 = [0, 0] ++ List.replicate 2 0 ∧
    rs_grow [0, 0] 1 = [0, 0] ∧
    RevPiControl.redirect_stream (fun _ _ => Except.ok []) 1 0 [0, 0] [] =
      (some (Except.ok (), [0, 0], []), [2]) := by
  have hread : ∀ (j L : Nat) (chunk : List Nat),
      (fun _ _ => (Except.ok [] : Except IOError (List Nat))) j L = Except.ok chunk →
        chunk.length ≤ L := by
    intro j L chunk h
    injection h with h
    rw [← h]
    simp
  have h2 := c8_stream_copy (fun _ _ => Except.ok []) 0 0 2 [0, 0] [] hread
  have h1 := c8_stream_copy (fun _ _ => Except.ok []) 0 0 1 [0, 0] [] hread
  exact ⟨h2.2.2.1 rfl (by norm_num [RevPiControl.LARGE_BUFFER_SIZE]),
    h1.2.2.2.1 (by simp), h2.2.2.2.2.2 rfl⟩
